import Mathlib

/-!
Shallow embedding of the query-anonymization and backend-dispatch core of the
mirror-search repository (TypeScript), together with proofs of the spec claims.

The anonymization engine is embedded from `src/wasm-llm.ts` (class `WasmLLM`):
`anonymizeQuery`, `onnxAnonymize`, `ruleBasedAnonymize`, `applyAdvancedPatterns`,
`basicAnonymization`, `categorizePattern` and the static rule table.
The search side is embedded from `src/search-engines.ts` (class `SearchEngines`):
`search`, `searchDuckDuckGo`, `parseDuckDuckGoResults`, `getMockResults`, and from
`index.ts` the `safeResponse` normalization of the POST /search handler.

JavaScript strings are modelled as Lean `String` (a wrapper around `List Char`);
string helpers (`toLowerCase`, `trim`, `includes`, global `replace`, the
word-boundary regexes of the source) are implemented below over `List Char`.
Case mapping is modelled for ASCII letters, and `\s` as space/tab/CR/LF, which
covers every string the source manipulates.  JavaScript numbers holding the
confidence scores are modelled as exact rationals; the source combines the
literals 0.1, 0.2, 0.3, 0.85, 0.9 only through `x*0.2+0.3`, `Math.min` and
`Math.max`, so the rational model agrees with the double-precision evaluation.
Wall-clock durations (`Date.now()` differences) are passed in as parameters or
fixed to 0; no claim depends on them.
-/

namespace MirrorSearch

/-! ### JavaScript string primitives over `List Char` -/

/-- The whitespace class used by the `\s` regexes and `String.prototype.trim`
of the source (restricted to the ASCII whitespace the pipeline produces). -/
def isWs (c : Char) : Bool :=
  c = ' ' || c = '\t' || c = '\n' || c = '\r'

/-- ASCII lower-case table for `String.prototype.toLowerCase`. -/
def lowerPairs : List (Char × Char) :=
  [ ('A', 'a'), ('B', 'b'), ('C', 'c'), ('D', 'd'), ('E', 'e'), ('F', 'f'),
    ('G', 'g'), ('H', 'h'), ('I', 'i'), ('J', 'j'), ('K', 'k'), ('L', 'l'),
    ('M', 'm'), ('N', 'n'), ('O', 'o'), ('P', 'p'), ('Q', 'q'), ('R', 'r'),
    ('S', 's'), ('T', 't'), ('U', 'u'), ('V', 'v'), ('W', 'w'), ('X', 'x'),
    ('Y', 'y'), ('Z', 'z') ]

def charLower (c : Char) : Char :=
  match lowerPairs.find? (fun p => p.1 == c) with
  | some p => p.2
  | none => c

/-- `query.toLowerCase()` (ASCII). -/
def jsToLower (s : String) : String :=
  ⟨s.data.map charLower⟩

def trimL (l : List Char) : List Char :=
  ((l.dropWhile isWs).reverse.dropWhile isWs).reverse

/-- `s.trim()`. -/
def jsTrim (s : String) : String :=
  ⟨trimL s.data⟩

/-- Whether the first list is an initial segment of the second. -/
def leadEq : List Char → List Char → Bool
  | [], _ => true
  | _ :: _, [] => false
  | p :: ps, c :: cs => p == c && leadEq ps cs

/-- Substring occurrence test, `s.includes(pat)`. -/
def containsSub (pat : List Char) : List Char → Bool
  | [] => leadEq pat []
  | c :: cs => leadEq pat (c :: cs) || containsSub pat cs

def jsIncludes (s pat : String) : Bool :=
  containsSub pat.data s.data

/-- Fueled left-to-right global substring replacement.  The fuel is set to the
length of the subject, which suffices for the non-empty patterns of the rule
table. -/
def replaceAllF : Nat → List Char → List Char → List Char → List Char
  | 0, s, _, _ => s
  | Nat.succ fuel, s, pat, rep =>
    match s with
    | [] => []
    | c :: cs =>
      if leadEq pat (c :: cs) then
        rep ++ replaceAllF fuel ((c :: cs).drop pat.length) pat rep
      else
        c :: replaceAllF fuel cs pat rep

/-- `s.replace(new RegExp(pat, gi), rep)` for the plain lower-case literal
patterns of the rule table applied to already lower-cased subjects, where the
case-insensitive flag is inert and the regex is a literal substring. -/
def jsReplaceAll (s pat rep : String) : String :=
  ⟨replaceAllF s.data.length s.data pat.data rep.data⟩

/-- JavaScript `\w`: ASCII letters, digits and underscore. -/
def isWordChar (c : Char) : Bool :=
  c.isAlpha || c.isDigit || c = '_'

/-- Fueled splitting of a string into maximal runs of word characters and
non-word characters; `\b` boundaries of the source regexes fall exactly
between two adjacent runs. -/
def splitRunsF : Nat → List Char → List (List Char)
  | 0, _ => []
  | Nat.succ fuel, l =>
    match l with
    | [] => []
    | c :: cs =>
      let cls := isWordChar c
      (c :: cs.takeWhile (fun d => isWordChar d == cls)) ::
        splitRunsF fuel (cs.dropWhile (fun d => isWordChar d == cls))

def splitRuns (l : List Char) : List (List Char) :=
  splitRunsF l.length l

def lowerRun (run : List Char) : List Char :=
  run.map charLower

/-- `s.replace(/\b(w1|w2|...)\bgi, rep)` for single-word alternatives: a word
run matches iff its lower-cased form is one of the listed words. -/
def replaceWordRuns (tbl : List (List Char)) (rep : List Char) (l : List Char) : List Char :=
  ((splitRuns l).map (fun run =>
    match run with
    | [] => []
    | c :: _ => if isWordChar c && tbl.contains (lowerRun run) then rep else run)).flatten

/-- `/\b(w1|w2|...)\b/gi.test(s)`. -/
def testWordRuns (tbl : List (List Char)) (l : List Char) : Bool :=
  (splitRuns l).any (fun run =>
    match run with
    | [] => false
    | c :: _ => isWordChar c && tbl.contains (lowerRun run))

/-- `s.replace(/\b\d+\b/g, rep)`: a match is a maximal word run made of
digits only. -/
def replaceDigitRuns (rep : List Char) (l : List Char) : List Char :=
  ((splitRuns l).map (fun run =>
    if !run.isEmpty && run.all (fun c => c.isDigit) then rep else run)).flatten

/-- Collapse every whitespace run to a single space, `s.replace(/\s+/g, ' ')`. -/
def collapseWsL : List Char → List Char
  | [] => []
  | c :: cs =>
    let rest := collapseWsL cs
    if isWs c then
      if rest.head? == some ' ' then rest else ' ' :: rest
    else
      c :: rest

def isUpperA (c : Char) : Bool := 'A' ≤ c && c ≤ 'Z'

def isLowerA (c : Char) : Bool := 'a' ≤ c && c ≤ 'z'

def chars (s : String) : List Char := s.data

/-- A word run of shape `[A-Z][a-z]+`. -/
def isCapWordRun : List Char → Bool
  | c :: c2 :: rest => isUpperA c && isLowerA c2 && rest.all isLowerA
  | _ => false

def isSingleWs : List Char → Bool
  | [c] => isWs c
  | _ => false

/-- `s.replace(/\b[A-Z][a-z]+\s[A-Z][a-z]+\b/g, ...)` with the token brand, over the run
decomposition: two capitalized word runs separated by exactly one whitespace
character collapse to the token `brand`. -/
def brandPass : List (List Char) → List (List Char)
  | r1 :: r2 :: r3 :: rest =>
    if isCapWordRun r1 && isSingleWs r2 && isCapWordRun r3 then
      chars "brand" :: brandPass rest
    else
      r1 :: brandPass (r2 :: r3 :: rest)
  | l => l

def brandReplaceRuns (l : List Char) : List Char :=
  (brandPass (splitRuns l)).flatten

/-- First-occurrence-preserving deduplication, `[...new Set(xs)]`. -/
def dedupAux : List String → List String → List String
  | _, [] => []
  | seen, x :: xs =>
    if x ∈ seen then dedupAux seen xs else x :: dedupAux (x :: seen) xs

def dedupKeepFirst (l : List String) : List String :=
  dedupAux [] l

/-- `Math.min` on the rational model of the confidence scores. -/
def jsMin (a b : ℚ) : ℚ := if a ≤ b then a else b

/-- `Math.max` on the rational model of the confidence scores. -/
def jsMax (a b : ℚ) : ℚ := if a ≤ b then b else a

/-! ### Anonymization engine (`src/wasm-llm.ts`) -/

inductive AnonMethod where
  | tinyllama
  | ruleBased
  | fallback
  | onnxLLM
deriving Repr, DecidableEq

/-- `AnonymizationResult` of `src/wasm-llm.ts`. -/
structure AnonymizationResult where
  originalQuery : String
  anonymizedQuery : String
  confidence : ℚ
  preservedSemantics : List String
  processingTime : Nat
  method : AnonMethod
deriving Repr, DecidableEq

/-- `AnonymizationSubResult` of `src/wasm-llm.ts`. -/
structure AnonymizationSubResult where
  originalQuery : String
  anonymizedQuery : String
  confidence : ℚ
  preservedSemantics : List String
deriving Repr, DecidableEq

/-- The static `anonymizationRules` map of the `WasmLLM` constructor, in
insertion order (JavaScript `Map` iteration order). -/
def anonymizationRules : List (String × String) :=
  [ ("city", "location"), ("town", "location"), ("near", "location"),
    ("nearby", "area"),
    ("restaurant", "food_place"), ("cuisine", "food_type"), ("meal", "food"),
    ("dish", "food"), ("dinner", "meal"),
    ("today", "recent"), ("tomorrow", "soon"), ("now", "current"),
    ("urgent", "important"),
    ("family", "people"), ("home", "place"), ("work", "workplace"),
    ("school", "education_place") ]

/-- `categorizePattern` of `src/wasm-llm.ts`: first matching category of the
static table, in object-literal order, else `general`. -/
def categorizePattern (pattern : String) : String :=
  if ["city", "town", "near", "nearby", "local", "district", "area"].contains pattern then
    "location"
  else if ["best", "favorite", "quality", "cheap", "affordable", "premium"].contains pattern then
    "preference"
  else if ["food", "restaurant", "meal", "cuisine", "dish"].contains pattern then
    "food"
  else if ["today", "tomorrow", "now", "urgent", "immediately"].contains pattern then
    "time"
  else if ["home", "work", "school", "family", "house"].contains pattern then
    "personal"
  else
    "general"

/-- The rule loop of `ruleBasedAnonymize`: for each rule in order, if the
current string contains the pattern, replace all its occurrences, record the
category and count the replacement.  Returns the rewritten string, the
recorded categories in push order, and the replacement count. -/
def applyRules : List (String × String) → String → String × List String × Nat
  | [], aq => (aq, [], 0)
  | (p, r) :: rest, aq =>
    if jsIncludes aq p then
      let t := applyRules rest (jsReplaceAll aq p r)
      (t.1, categorizePattern p :: t.2.1, t.2.2 + 1)
    else
      applyRules rest aq

/-- Word table of the pronoun regex of `applyAdvancedPatterns`,
`/\b(my|mine|me|I|we|our)\b/gi`. -/
def advPronouns : List (List Char) :=
  (["my", "mine", "me", "i", "we", "our"]).map chars

/-- `applyAdvancedPatterns` of `src/wasm-llm.ts`: strip personal pronouns,
generalize bare integers to `number`, collapse capitalized brand pairs,
normalize whitespace; tags `pattern-based` when anything changed. -/
def applyAdvancedPatterns (query : String) (semantics : List String) : String × List String :=
  let r1 := replaceWordRuns advPronouns [] query.data
  let r2 := replaceDigitRuns (chars "number") r1
  let r3 := brandReplaceRuns r2
  let result : String := ⟨trimL (collapseWsL r3)⟩
  if result ≠ query then (result, semantics ++ ["pattern-based"]) else (result, semantics)

/-- `query.toLowerCase().trim()`. -/
def normalizedOf (q : String) : String :=
  jsTrim (jsToLower q)

def ruleStep (q : String) : String × List String × Nat :=
  applyRules anonymizationRules (normalizedOf q)

/-- String and semantics after the rule loop and the advanced patterns of
`ruleBasedAnonymize`, before the emptiness fallback check. -/
def rulePatterns (q : String) : String × List String :=
  applyAdvancedPatterns (ruleStep q).1 (ruleStep q).2.1

/-- The `replacements` counter of `ruleBasedAnonymize`: how many rule-table
patterns were found (each counted once, against the progressively rewritten
string). -/
def ruleMatchCount (q : String) : Nat :=
  (ruleStep q).2.2

/-- `ruleBasedAnonymize` of `src/wasm-llm.ts`: when the transformed string is
empty or shorter than two characters after trimming, revert to the original
query and record the `fallback` tag. -/
def ruleBasedAnonymize (query : String) : AnonymizationResult :=
  { originalQuery := query,
    anonymizedQuery := jsTrim
      (if (rulePatterns query).1 = "" ∨ (jsTrim (rulePatterns query).1).length < 2 then query
       else (rulePatterns query).1),
    confidence := jsMin (9/10) (jsMax (1/10) ((ruleMatchCount query : ℚ) * (1/5) + 3/10)),
    preservedSemantics := dedupKeepFirst
      (if (rulePatterns query).1 = "" ∨ (jsTrim (rulePatterns query).1).length < 2 then
        (rulePatterns query).2 ++ ["fallback"]
       else (rulePatterns query).2),
    processingTime := 0,
    method := AnonMethod.ruleBased }

/-- The `advancedPatterns` table of `onnxAnonymize`: word alternatives,
replacement, and semantic tag, in source order. -/
def onnxPatterns : List (List (List Char) × List Char × String) :=
  [ ((["city", "town", "address"]).map chars, chars "location", "location"),
    ((["me", "my", "mine", "i", "personal"]).map chars, [], "personal"),
    ((["home", "work", "school"]).map chars, chars "location", "personal"),
    ((["best", "favorite", "preferred"]).map chars, chars "recommended", "preference"),
    ((["cheap", "expensive", "quality"]).map chars, chars "quality_level", "preference"),
    ((["food", "restaurant", "cuisine", "dish"]).map chars, chars "local_food", "food"),
    ((["today", "tomorrow", "now", "urgent"]).map chars, chars "time_sensitive", "temporal") ]

/-- The pattern loop of `onnxAnonymize`: test each regex, and on a hit replace
globally and push the semantic tag. -/
def onnxApply : List (List (List Char) × List Char × String) → List Char → List String →
    List Char × List String
  | [], l, sems => (l, sems)
  | (tbl, rep, sem) :: rest, l, sems =>
    if testWordRuns tbl l then
      onnxApply rest (replaceWordRuns tbl rep l) (sems ++ [sem])
    else
      onnxApply rest l sems

/-- The rewritten, whitespace-normalized string of `onnxAnonymize`. -/
def onnxTransformed (query : String) : String :=
  ⟨trimL (collapseWsL (onnxApply onnxPatterns (normalizedOf query).data ["onnx-processed"]).1)⟩

/-- The semantic tags pushed by `onnxAnonymize`. -/
def onnxSems (query : String) : List String :=
  (onnxApply onnxPatterns (normalizedOf query).data ["onnx-processed"]).2

/-- `onnxAnonymize` of `src/wasm-llm.ts` (the simulated ONNX path): returns
`none` when the cleaned-up rewrite is empty or shorter than 2 characters. -/
def onnxAnonymize (query : String) : Option AnonymizationSubResult :=
  if onnxTransformed query = "" ∨ (onnxTransformed query).length < 2 then
    none
  else
    some { originalQuery := query, anonymizedQuery := onnxTransformed query,
           confidence := 17/20, preservedSemantics := dedupKeepFirst (onnxSems query) }

/-- `anonymizeQuery` of `src/wasm-llm.ts` on its non-throwing paths.
`modelLoaded` reflects `tinyLlamaModel?.loaded` (the simulated ONNX model).
The `tinyLlamaAnonymize` branch is skipped: either the model object is absent,
or invoking the non-callable simulation object throws inside the try/catch of that method and it returns null, so control always continues to
`ruleBasedAnonymize`. -/
def anonymizeQuery (modelLoaded : Bool) (query : String) : AnonymizationResult :=
  if (normalizedOf query).length < 3 then
    { originalQuery := query, anonymizedQuery := query, confidence := 9/10,
      preservedSemantics := ["short-query"], processingTime := 0,
      method := AnonMethod.fallback }
  else
    match (if modelLoaded then onnxAnonymize query else none) with
    | some r =>
      { originalQuery := r.originalQuery, anonymizedQuery := r.anonymizedQuery,
        confidence := r.confidence, preservedSemantics := r.preservedSemantics,
        processingTime := 0, method := AnonMethod.onnxLLM }
    | none => ruleBasedAnonymize query

/-- `basicAnonymization` of `src/wasm-llm.ts`: strip first-person pronouns,
generalize integers, collapse whitespace; revert to the original query when
the result is empty or shorter than 2 characters. -/
def basicAnonymization (query : String) : String :=
  let r1 := replaceWordRuns ((["i", "me", "my", "mine"]).map chars) [] query.data
  let r2 := replaceDigitRuns (chars "number") r1
  let result : String := ⟨trimL (collapseWsL r2)⟩
  if result = "" ∨ result.length < 2 then query else result

/-- The final catch handler of `anonymizeQuery`: the result produced when an
internal error escapes every strategy. -/
def anonymizeFinalFallback (query : String) : AnonymizationResult :=
  { originalQuery := query, anonymizedQuery := basicAnonymization query,
    confidence := 3/10, preservedSemantics := ["general"], processingTime := 0,
    method := AnonMethod.fallback }

/-- Total model of `anonymizeQuery` including the outer try/catch:
`internalError` marks an exception escaping the strategy cascade, answered by
the final fallback result; otherwise the normal paths run.  The promise never
rejects: every input yields an `AnonymizationResult`. -/
def anonymizeQueryTotal (modelLoaded internalError : Bool) (query : String) :
    AnonymizationResult :=
  if internalError then anonymizeFinalFallback query else anonymizeQuery modelLoaded query

/-! ### Search engines (`src/search-engines.ts`) -/

/-- `SearchResult` of `src/search-engines.ts`. -/
structure SearchResult where
  title : String
  url : String
  snippet : String
  source : String
deriving Repr, DecidableEq

/-- The `status` record of `SearchResponse`.  The source field `protected` is
a reserved word in Lean and is spelled `protectedFlag` here. -/
structure SearchStatus where
  anonymized : Bool
  protectedFlag : Bool
  fast : Bool
  secure : Bool
deriving Repr, DecidableEq

/-- `SearchResponse` of `src/search-engines.ts` (the `debug` mirror of the
anonymization data is omitted; every claim reads it through `anonymization`). -/
structure SearchResponse where
  results : List SearchResult
  totalResults : Nat
  totalTime : Nat
  engine : String
  status : SearchStatus
  anonymization : Option AnonymizationResult
deriving Repr, DecidableEq

/-- An entry of `RelatedTopics` or `Results` in the DuckDuckGo payload.
JavaScript string truthiness makes an absent field behave exactly like the
empty string, so optional string fields are modelled as `String` with `""`
for absent. -/
structure Topic where
  Text : String
  FirstURL : String
deriving Repr, DecidableEq

/-- The fields of the DuckDuckGo instant-answer JSON read by
`parseDuckDuckGoResults`. -/
structure DDGPayload where
  Abstract : String
  AbstractText : String
  AbstractURL : String
  Heading : String
  Definition : String
  DefinitionURL : String
  Answer : String
  AnswerType : String
  RelatedTopics : List Topic
  Results : List Topic
deriving Repr, DecidableEq

/-- Characters of the split separator, space-dash-space. -/
def sepDash : List Char := chars " - "

/-- Everything before the first occurrence of the three-character separator
`space dash space`; the whole list when the separator does not occur. -/
def beforeSep : List Char → List Char
  | [] => []
  | c :: cs => if leadEq sepDash (c :: cs) then [] else c :: beforeSep cs

/-- `text.split(sep)[0] || dflt` for the three-character separator space-dash-space. -/
def splitHeadOr (s dflt : String) : String :=
  if (⟨beforeSep s.data⟩ : String) = "" then dflt else ⟨beforeSep s.data⟩

/-- One entry of the `RelatedTopics`/`Results` loops of
`parseDuckDuckGoResults`: skipped unless both `Text` and `FirstURL` are
truthy. -/
def topicResult (src dflt : String) (t : Topic) : Option SearchResult :=
  if t.Text ≠ "" ∧ t.FirstURL ≠ "" then
    some { title := splitHeadOr t.Text dflt, url := t.FirstURL,
           snippet := t.Text, source := src }
  else
    none

def ddgAbstractRes (d : DDGPayload) : List SearchResult :=
  if d.Abstract ≠ "" ∧ d.AbstractText ≠ "" ∧ d.AbstractURL ≠ "" then
    [ { title := if d.Heading ≠ "" then d.Heading else "Definition",
        url := d.AbstractURL, snippet := d.AbstractText,
        source := "DuckDuckGo Instant" } ]
  else
    []

def ddgDefinitionRes (d : DDGPayload) : List SearchResult :=
  if d.Definition ≠ "" ∧ d.DefinitionURL ≠ "" then
    [ { title := d.Definition, url := d.DefinitionURL, snippet := d.Definition,
        source := "DuckDuckGo Definition" } ]
  else
    []

def ddgAnswerRes (d : DDGPayload) : List SearchResult :=
  if d.Answer ≠ "" ∧ d.AnswerType ≠ "" then
    [ { title := d.AnswerType ++ " Answer",
        url := if d.AbstractURL ≠ "" then d.AbstractURL else "#",
        snippet := d.Answer, source := "DuckDuckGo Answer" } ]
  else
    []

def ddgRelatedRes (d : DDGPayload) : List SearchResult :=
  (d.RelatedTopics.take 5).filterMap (topicResult "DuckDuckGo Related" "Related Topic")

def ddgOfficialRes (d : DDGPayload) : List SearchResult :=
  (d.Results.take 3).filterMap (topicResult "DuckDuckGo" "Search Result")

/-- `parseDuckDuckGoResults` of `src/search-engines.ts`: Abstract, Definition,
Answer, up to five related topics and up to three official results, truncated
to `maxResults` (10 in the default configuration). -/
def parseDuckDuckGoResults (maxResults : Nat) (d : DDGPayload) : List SearchResult :=
  (ddgAbstractRes d ++ ddgDefinitionRes d ++ ddgAnswerRes d ++
    ddgRelatedRes d ++ ddgOfficialRes d).take maxResults

/-- Outcome of the network fetch in `searchDuckDuckGo`: either the request
threw, timed out, returned non-2xx, or yielded an unparseable body
(`httpError`), or a JSON payload was obtained. -/
inductive FetchOutcome where
  | httpError (message : String)
  | payload (data : DDGPayload)
deriving Repr, DecidableEq

/-- `searchDuckDuckGo` of `src/search-engines.ts`: rejects short queries,
propagates fetch errors, and treats an empty parsed result list as a failure
(`No results from DuckDuckGo API`) so that the caller falls through to the
mock fallback. -/
def searchDuckDuckGo (query : String) (outcome : FetchOutcome) :
    Except String (List SearchResult) :=
  if (jsTrim query).length < 2 then
    Except.error "Query too short"
  else
    match outcome with
    | FetchOutcome.httpError m => Except.error m
    | FetchOutcome.payload d =>
      if (parseDuckDuckGoResults 10 d).length = 0 then
        Except.error "No results from DuckDuckGo API"
      else
        Except.ok (parseDuckDuckGoResults 10 d)

def isErr {α : Type} (e : Except String α) : Bool :=
  match e with
  | Except.error _ => true
  | Except.ok _ => false

/-! `encodeURIComponent`: RFC 3986 unreserved characters pass through, every
other character is percent-encoded from its UTF-8 bytes with upper-case hex. -/

def uriUnreserved (c : Char) : Bool :=
  c.isAlpha || c.isDigit || c = '-' || c = '_' || c = '.' || c = '!' ||
    c = '~' || c = '*' || c.toNat = 39 || c = '(' || c = ')'

def hexDigit (n : Nat) : Char :=
  if n < 10 then Char.ofNat (48 + n) else Char.ofNat (55 + n)

def utf8Bytes (n : Nat) : List Nat :=
  if n < 128 then [n]
  else if n < 2048 then [192 + n / 64, 128 + n % 64]
  else if n < 65536 then [224 + n / 4096, 128 + (n / 64) % 64, 128 + n % 64]
  else [240 + n / 262144, 128 + (n / 4096) % 64, 128 + (n / 64) % 64, 128 + n % 64]

def pctEncodeChar (c : Char) : List Char :=
  if uriUnreserved c then [c]
  else ((utf8Bytes c.toNat).map (fun b => ['%', hexDigit (b / 16), hexDigit (b % 16)])).flatten

def encodeURIComponent (s : String) : String :=
  ⟨(s.data.map pctEncodeChar).flatten⟩

/-- The three synthesized placeholder results of `getMockResults`, built from
the (possibly anonymized) final query. -/
def mockResultsFor (finalQuery : String) : List SearchResult :=
  [ { title := finalQuery ++ " - Search Results",
      url := "https://en.wikipedia.org/wiki/" ++ encodeURIComponent finalQuery,
      snippet := "Information about " ++ finalQuery ++ ". This is a mock result while the search engine is being optimized for better performance.",
      source := "Mirror Search" },
    { title := finalQuery ++ " Guide and Information",
      url := "https://example.com/search?q=" ++ encodeURIComponent finalQuery,
      snippet := "Comprehensive guide and detailed information about " ++ finalQuery ++ ". Privacy-first search results.",
      source := "Mirror Search" },
    { title := "Best " ++ finalQuery ++ " Resources",
      url := "https://example.com/resources/" ++ encodeURIComponent finalQuery,
      snippet := "Top resources and links related to " ++ finalQuery ++ ". Curated content for your search query.",
      source := "Mirror Search" } ]

/-- The anonymization record computed inside `getMockResults`. -/
def mockAnonRes (modelLoaded enableAnon anonymized : Bool) (query : String) :
    Option AnonymizationResult :=
  if anonymized && enableAnon then some (anonymizeQuery modelLoaded query) else none

/-- The query the mock results are rendered from. -/
def mockFinalQuery (modelLoaded enableAnon anonymized : Bool) (query : String) : String :=
  match mockAnonRes modelLoaded enableAnon anonymized query with
  | some a => a.anonymizedQuery
  | none => query

/-- `getMockResults` of `src/search-engines.ts`: the fallback response when
the real backend attempt failed.  Anonymization is re-applied to the original
query when enabled; the engine label marks degraded mode. -/
def getMockResults (modelLoaded enableAnon anonymized : Bool) (query : String)
    (processingTime : Nat) : SearchResponse :=
  { results := mockResultsFor (mockFinalQuery modelLoaded enableAnon anonymized query),
    totalResults := (mockResultsFor (mockFinalQuery modelLoaded enableAnon anonymized query)).length,
    totalTime := processingTime,
    engine := "Mirror Search (Fallback)",
    status := { anonymized := (mockAnonRes modelLoaded enableAnon anonymized query).isSome,
                protectedFlag := true,
                fast := decide (processingTime < 1000), secure := true },
    anonymization := mockAnonRes modelLoaded enableAnon anonymized query }

/-- The query actually sent to the backend by `search`: the anonymized query,
unless anonymization is disabled or its output is empty or shorter than two
characters after trimming, in which case the original query is used. -/
def searchFinalQuery (modelLoaded enableAnon useAnonymization : Bool) (query : String) : String :=
  if useAnonymization && enableAnon then
    let a := anonymizeQuery modelLoaded query
    if a.anonymizedQuery = "" ∨ (jsTrim a.anonymizedQuery).length < 2 then query
    else a.anonymizedQuery
  else
    query

/-- The anonymization record attached to the response by `search`; reset to
`undefined` when the anonymized query was unusable. -/
def searchAnonRes (modelLoaded enableAnon useAnonymization : Bool) (query : String) :
    Option AnonymizationResult :=
  if useAnonymization && enableAnon then
    let a := anonymizeQuery modelLoaded query
    if a.anonymizedQuery = "" ∨ (jsTrim a.anonymizedQuery).length < 2 then none
    else some a
  else
    none

/-- `search` of `src/search-engines.ts`: anonymize when enabled, query the
DuckDuckGo backend, and on any failure return the mock fallback response.
The surrounding try/catch makes the function total: every input yields a
well-formed `SearchResponse`. -/
def search (modelLoaded enableAnon useAnonymization : Bool) (query : String)
    (outcome : FetchOutcome) (totalTime : Nat) : SearchResponse :=
  match searchDuckDuckGo (searchFinalQuery modelLoaded enableAnon useAnonymization query) outcome with
  | Except.ok results =>
    { results := results,
      totalResults := results.length,
      totalTime := totalTime,
      engine := "DuckDuckGo",
      status := { anonymized := (searchAnonRes modelLoaded enableAnon useAnonymization query).isSome,
                  protectedFlag := true, fast := decide (totalTime < 2000), secure := true },
      anonymization := searchAnonRes modelLoaded enableAnon useAnonymization query }
  | Except.error _ => getMockResults modelLoaded enableAnon useAnonymization query totalTime

/-! ### Response normalization of the HTTP handler (`index.ts`) -/

/-- `String(field || empty)` of the `safeResponse` construction: a falsy (empty)
field is replaced by the empty string, a truthy field is kept. -/
def coerceField (s : String) : String :=
  if s = "" then "" else s

/-- The shape sent to the caller by the POST /search handler of `index.ts`. -/
structure SafeResponse where
  results : List SearchResult
  totalResults : Nat
  totalTime : Nat
  engine : String
  status : SearchStatus
  dbgEngine : String
  dbgErrorInfo : List (String × String)
  dbgQuery : String
  dbgAnonymized : Bool
deriving Repr, DecidableEq

/-- `safeResponse` of `index.ts`: coerce every result field to a string and
attach `debug_info`.  The `SearchResponse` of this source variant carries no
`errorInfo` field, so `searchResult.errorInfo || {}` is always the empty
map. -/
def safeResponse (query : String) (r : SearchResponse) : SafeResponse :=
  { results := r.results.map (fun x =>
      { title := coerceField x.title, url := coerceField x.url,
        snippet := coerceField x.snippet, source := coerceField x.source }),
    totalResults := r.totalResults,
    totalTime := r.totalTime,
    engine := r.engine,
    status := r.status,
    dbgEngine := r.engine,
    dbgErrorInfo := [],
    dbgQuery := query,
    dbgAnonymized := r.status.anonymized }

/-- Boolean check that a delivered result has only non-empty fields. -/
def fieldsOk (r : SearchResult) : Bool :=
  !(r.title == "") && !(r.url == "") && !(r.snippet == "") && !(r.source == "")

/-! ### Spec-modelled multi-backend orchestrator -/

/-- One backend attempt of the priority list: its name and either an error
message or its parsed results. -/
structure BackendAttempt where
  name : String
  outcome : Except String (List SearchResult)

/-- Response shape of the multi-backend orchestrator, with the aggregated
per-backend error map. -/
structure OrchestratorResponse where
  results : List SearchResult
  engine : String
  errorInfo : List (String × String)

/-- Modelled from the spec: the two-backend orchestrator variant
(`searchWithFallback`) whose implementation is not among the repository
sources — only its callers remain (`index.ts` reads `searchResult.errorInfo`,
and an alternate entry point imports `searchWithFallback` from
`./src/search-engines`).  Following spec section 4.2: backends are tried in
priority order; on failure the error string is recorded in `errorInfo` keyed
by the backend name and the next backend is tried; the first success returns
its results with `engine` set to the name of that backend; when every backend has
failed, a synthesized fallback result set is returned under a distinguishing
engine label. -/
def searchWithFallback : List BackendAttempt → List (String × String) → String →
    OrchestratorResponse
  | [], errs, query =>
    { results := mockResultsFor query, engine := "Mirror Search (Fallback)",
      errorInfo := errs }
  | b :: bs, errs, query =>
    match b.outcome with
    | Except.ok rs => { results := rs, engine := b.name, errorInfo := errs }
    | Except.error m => searchWithFallback bs (errs ++ [(b.name, m)]) query

/-! ### Concrete fixtures used by counterexamples and witnesses -/

/-- A payload whose Abstract and Answer sections share `AbstractURL`. -/
def dupPayload : DDGPayload :=
  { Abstract := "x", AbstractText := "t", AbstractURL := "http://u",
    Heading := "H", Definition := "", DefinitionURL := "", Answer := "42",
    AnswerType := "calc", RelatedTopics := [], Results := [] }

/-- A payload with no usable section: it parses to the empty result list. -/
def emptyDDGPayload : DDGPayload :=
  { Abstract := "", AbstractText := "", AbstractURL := "", Heading := "",
    Definition := "", DefinitionURL := "", Answer := "", AnswerType := "",
    RelatedTopics := [], Results := [] }

/-! ## Shared lemmas -/

theorem append_data (s t : String) : (s ++ t).data = s.data ++ t.data := by
  cases s
  cases t
  rfl

theorem data_eq_imp (s t : String) (h : s.data = t.data) : s = t := by
  cases s
  cases t
  exact congrArg String.mk h

theorem str_append_ne_left (a b : String) (h : a.data ≠ []) : a ++ b ≠ "" := by
  intro he
  have hd : a.data ++ b.data = [] := by
    have := congrArg String.data he
    rwa [append_data] at this
  exact h (List.append_eq_nil.mp hd).1

theorem str_append_ne_right (a b : String) (h : b.data ≠ []) : a ++ b ≠ "" := by
  intro he
  have hd : a.data ++ b.data = [] := by
    have := congrArg String.data he
    rwa [append_data] at this
  exact h (List.append_eq_nil.mp hd).2

theorem str_append_ne_of_length {a b : String} (s : String)
    (h : a.data.length ≠ b.data.length) : a ++ s ≠ b ++ s := by
  intro he
  have hd : a.data ++ s.data = b.data ++ s.data := by
    have := congrArg String.data he
    rwa [append_data, append_data] at this
  have hlen := congrArg List.length hd
  rw [List.length_append, List.length_append] at hlen
  omega

theorem str_append_ne_of_ne {a b : String} (s : String)
    (hl : a.data.length = b.data.length) (h : a ≠ b) : a ++ s ≠ b ++ s := by
  intro he
  have hd : a.data ++ s.data = b.data ++ s.data := by
    have := congrArg String.data he
    rwa [append_data, append_data] at this
  exact h (data_eq_imp a b (List.append_inj hd hl).1)

theorem mem_dedupAux (x : String) :
    ∀ (l seen : List String), x ∈ dedupAux seen l ↔ (x ∈ l ∧ x ∉ seen) := by
  intro l
  induction l with
  | nil => intro seen; simp [dedupAux]
  | cons y ys ih =>
    intro seen
    by_cases hy : y ∈ seen
    · rw [dedupAux, if_pos hy, ih]
      constructor
      · rintro ⟨h1, h2⟩
        exact ⟨List.mem_cons_of_mem _ h1, h2⟩
      · rintro ⟨h1, h2⟩
        rcases List.mem_cons.mp h1 with h | h
        · subst h
          exact absurd hy h2
        · exact ⟨h, h2⟩
    · rw [dedupAux, if_neg hy]
      rw [List.mem_cons, ih]
      constructor
      · rintro (rfl | ⟨h1, h2⟩)
        · exact ⟨List.mem_cons_self _ _, hy⟩
        · exact ⟨List.mem_cons_of_mem _ h1, fun hs => h2 (List.mem_cons_of_mem _ hs)⟩
      · rintro ⟨h1, h2⟩
        by_cases hxy : x = y
        · exact Or.inl hxy
        · rcases List.mem_cons.mp h1 with h | h
          · exact absurd h hxy
          · exact Or.inr ⟨h, fun hs => (List.mem_cons.mp hs).elim hxy h2⟩

theorem mem_dedup (x : String) (l : List String) : x ∈ dedupKeepFirst l ↔ x ∈ l := by
  rw [dedupKeepFirst, mem_dedupAux]
  simp

theorem trimL_nil_of_all (l : List Char) (h : ∀ c ∈ l, isWs c = true) : trimL l = [] := by
  unfold trimL
  rw [List.dropWhile_eq_nil_iff.mpr h]
  simp

theorem all_ws_of_trimL_nil (l : List Char) (h : trimL l = []) : ∀ c ∈ l, isWs c = true := by
  unfold trimL at h
  have h1 : (l.dropWhile isWs).reverse.dropWhile isWs = [] := by
    have := congrArg List.reverse h
    simpa using this
  have h2 : ∀ c ∈ (l.dropWhile isWs).reverse, isWs c := List.dropWhile_eq_nil_iff.mp h1
  have h3 : ∀ c ∈ l.dropWhile isWs, isWs c := by
    intro c hc
    exact h2 c (List.mem_reverse.mpr hc)
  intro c hc
  rw [show l = List.takeWhile isWs l ++ List.dropWhile isWs l from
    (List.takeWhile_append_dropWhile isWs l).symm] at hc
  rcases List.mem_append.mp hc with h4 | h4
  · exact List.mem_takeWhile_imp h4
  · exact h3 c h4

theorem charLower_ws (c : Char) (h : isWs c = true) : charLower c = c := by
  unfold isWs at h
  simp only [Bool.or_eq_true, decide_eq_true_eq] at h
  rcases h with ((rfl | rfl) | rfl) | rfl <;> decide

theorem jsTrim_ne_empty (q : String) (h : normalizedOf q ≠ "") : jsTrim q ≠ "" := by
  intro he
  apply h
  have hdata : trimL q.data = [] := congrArg String.data he
  have hall := all_ws_of_trimL_nil q.data hdata
  have hlow : trimL (q.data.map charLower) = [] := by
    apply trimL_nil_of_all
    intro c hc
    rcases List.mem_map.mp hc with ⟨c0, hc0, rfl⟩
    rw [charLower_ws c0 (hall c0 hc0)]
    exact hall c0 hc0
  exact data_eq_imp _ _ hlow

theorem onnxAnonymize_some (q : String) (r : AnonymizationSubResult)
    (h : onnxAnonymize q = some r) : r.originalQuery = q ∧ r.anonymizedQuery ≠ "" := by
  unfold onnxAnonymize at h
  split at h
  · exact absurd h (by simp)
  · rename_i hcond
    push_neg at hcond
    injection h with h
    subst h
    exact ⟨rfl, hcond.1⟩

theorem ruleBased_nonempty (q : String) (h : normalizedOf q ≠ "") :
    (ruleBasedAnonymize q).anonymizedQuery ≠ "" := by
  show jsTrim
      (if (rulePatterns q).1 = "" ∨ (jsTrim (rulePatterns q).1).length < 2 then q
       else (rulePatterns q).1) ≠ ""
  split
  · exact jsTrim_ne_empty q h
  · rename_i hcond
    push_neg at hcond
    intro he
    have h2 := hcond.2
    rw [he] at h2
    revert h2
    decide

theorem searchDuckDuckGo_ok_shape (q : String) (o : FetchOutcome) (rs : List SearchResult)
    (h : searchDuckDuckGo q o = Except.ok rs) :
    rs ≠ [] ∧ ∃ d, o = FetchOutcome.payload d ∧ rs = parseDuckDuckGoResults 10 d := by
  unfold searchDuckDuckGo at h
  split at h
  · exact absurd h (by simp)
  · split at h
    · exact absurd h (by simp)
    · rename_i d
      split at h
      · exact absurd h (by simp)
      · rename_i hlen
        injection h with h
        subst h
        refine ⟨?_, d, rfl, rfl⟩
        intro hnil
        rw [hnil] at hlen
        simp at hlen

theorem topicResult_fields (src dflt : String) (hsrc : src ≠ "") (hd : dflt ≠ "")
    (t : Topic) (r : SearchResult) (h : topicResult src dflt t = some r) :
    r.title ≠ "" ∧ r.url ≠ "" ∧ r.snippet ≠ "" ∧ r.source ≠ "" := by
  unfold topicResult at h
  split at h
  · rename_i hcond
    injection h with h
    subst h
    refine ⟨?_, hcond.2, hcond.1, hsrc⟩
    unfold splitHeadOr
    split
    · exact hd
    · rename_i hh
      exact hh
  · exact absurd h (by simp)

theorem abstract_fields (d : DDGPayload) :
    ∀ r ∈ ddgAbstractRes d, r.title ≠ "" ∧ r.url ≠ "" ∧ r.snippet ≠ "" ∧ r.source ≠ "" := by
  intro r hr
  unfold ddgAbstractRes at hr
  split at hr
  · rename_i hcond
    rw [List.mem_singleton] at hr
    subst hr
    refine ⟨?_, hcond.2.2, hcond.2.1, (by decide : ("DuckDuckGo Instant" : String) ≠ "")⟩
    split
    · rename_i hh
      exact hh
    · exact (by decide : ("Definition" : String) ≠ "")
  · simp at hr

theorem definition_fields (d : DDGPayload) :
    ∀ r ∈ ddgDefinitionRes d, r.title ≠ "" ∧ r.url ≠ "" ∧ r.snippet ≠ "" ∧ r.source ≠ "" := by
  intro r hr
  unfold ddgDefinitionRes at hr
  split at hr
  · rename_i hcond
    rw [List.mem_singleton] at hr
    subst hr
    exact ⟨hcond.1, hcond.2, hcond.1, (by decide : ("DuckDuckGo Definition" : String) ≠ "")⟩
  · simp at hr

theorem answer_fields (d : DDGPayload) :
    ∀ r ∈ ddgAnswerRes d, r.title ≠ "" ∧ r.url ≠ "" ∧ r.snippet ≠ "" ∧ r.source ≠ "" := by
  intro r hr
  unfold ddgAnswerRes at hr
  split at hr
  · rename_i hcond
    rw [List.mem_singleton] at hr
    subst hr
    refine ⟨str_append_ne_right _ _ (by decide), ?_, hcond.1,
      (by decide : ("DuckDuckGo Answer" : String) ≠ "")⟩
    split
    · rename_i hh
      exact hh
    · exact (by decide : ("#" : String) ≠ "")
  · simp at hr

theorem parse_fields (n : Nat) (d : DDGPayload) :
    ∀ r ∈ parseDuckDuckGoResults n d,
      r.title ≠ "" ∧ r.url ≠ "" ∧ r.snippet ≠ "" ∧ r.source ≠ "" := by
  intro r hr
  unfold parseDuckDuckGoResults at hr
  have hr2 := List.mem_of_mem_take hr
  simp only [List.mem_append] at hr2
  rcases hr2 with (((h5 | h5) | h5) | h5) | h5
  · exact abstract_fields d r h5
  · exact definition_fields d r h5
  · exact answer_fields d r h5
  · rcases List.mem_filterMap.mp h5 with ⟨t, ht, htr⟩
    exact topicResult_fields "DuckDuckGo Related" "Related Topic" (by decide) (by decide) t r htr
  · rcases List.mem_filterMap.mp h5 with ⟨t, ht, htr⟩
    exact topicResult_fields "DuckDuckGo" "Search Result" (by decide) (by decide) t r htr

theorem mock_fields (fq : String) :
    ∀ r ∈ mockResultsFor fq, r.title ≠ "" ∧ r.url ≠ "" ∧ r.snippet ≠ "" ∧ r.source ≠ "" := by
  intro r hr
  unfold mockResultsFor at hr
  simp only [List.mem_cons, List.not_mem_nil, or_false] at hr
  rcases hr with rfl | rfl | rfl
  · exact ⟨str_append_ne_right _ _ (by decide), str_append_ne_left _ _ (by decide),
      str_append_ne_right _ _ (by decide), (by decide : ("Mirror Search" : String) ≠ "")⟩
  · exact ⟨str_append_ne_right _ _ (by decide), str_append_ne_left _ _ (by decide),
      str_append_ne_right _ _ (by decide), (by decide : ("Mirror Search" : String) ≠ "")⟩
  · exact ⟨str_append_ne_right _ _ (by decide), str_append_ne_left _ _ (by decide),
      str_append_ne_right _ _ (by decide), (by decide : ("Mirror Search" : String) ≠ "")⟩

theorem mock_urls_pairwise (fq : String) :
    List.Pairwise (fun a b => a.url ≠ b.url) (mockResultsFor fq) := by
  unfold mockResultsFor
  refine List.Pairwise.cons ?_ (List.Pairwise.cons ?_ (List.pairwise_singleton _ _))
  · intro b hb
    rcases List.mem_cons.mp hb with rfl | hb
    · exact str_append_ne_of_length _ (by decide)
    · rw [List.mem_singleton] at hb
      subst hb
      exact str_append_ne_of_ne _ (by decide) (by decide)
  · intro b hb
    rw [List.mem_singleton] at hb
    subst hb
    exact str_append_ne_of_length _ (by decide)

theorem search_results_fields (ml enA uA : Bool) (q : String) (o : FetchOutcome) (t : Nat) :
    ∀ r ∈ (search ml enA uA q o t).results,
      r.title ≠ "" ∧ r.url ≠ "" ∧ r.snippet ≠ "" ∧ r.source ≠ "" := by
  intro r hr
  unfold search at hr
  split at hr
  · rename_i rs heq
    rcases searchDuckDuckGo_ok_shape _ _ _ heq with ⟨-, d, -, rfl⟩
    exact parse_fields 10 d r hr
  · exact mock_fields _ r hr

theorem coerceField_eq (s : String) : coerceField s = s := by
  unfold coerceField
  split
  · rename_i h
    exact h.symm
  · rfl

theorem fieldsOk_iff (r : SearchResult) :
    fieldsOk r = true ↔ (r.title ≠ "" ∧ r.url ≠ "" ∧ r.snippet ≠ "" ∧ r.source ≠ "") := by
  unfold fieldsOk
  simp [Bool.and_eq_true, Bool.not_eq_true', beq_eq_false_iff_ne, and_assoc]

/-! ## Claim theorems -/

/-- Claim C1, counterexample: on the empty input query, `anonymizeQuery`
returns the empty string as `anonymizedQuery` (the short-circuit path returns
the input unchanged), and the provenance is `short-query`, not `fallback` —
so `anonymizedQuery` is not always non-empty. -/
theorem claim1_counterexample :
    (anonymizeQuery false "").anonymizedQuery = "" ∧
    (anonymizeQuery false "").preservedSemantics = ["short-query"] := by
  constructor <;> decide

/-- Claim C1, amended: for every query whose lower-cased trimmed form has at
least 3 characters, `anonymizeQuery` returns a non-empty `anonymizedQuery`;
and on the rule-based path, whenever the transformation yields an empty or
shorter-than-2-character string, the result reverts to the original query
(trimmed) and `fallback` appears in the provenance.  Inputs shorter than 3
characters are returned unchanged by the short-circuit, so an empty input
yields an empty `anonymizedQuery`. -/
theorem claim1_amended_nonempty :
    (∀ (ml : Bool) (q : String), 3 ≤ (normalizedOf q).length →
      (anonymizeQuery ml q).anonymizedQuery ≠ "") ∧
    (∀ q : String,
      (rulePatterns q).1 = "" ∨ (jsTrim (rulePatterns q).1).length < 2 →
      (ruleBasedAnonymize q).anonymizedQuery = jsTrim q ∧
      "fallback" ∈ (ruleBasedAnonymize q).preservedSemantics) := by
  constructor
  · intro ml q h
    have hnorm : normalizedOf q ≠ "" := by
      intro he
      rw [he] at h
      revert h
      decide
    unfold anonymizeQuery
    split
    · rename_i hlt
      exact absurd h (by omega)
    · split
      · rename_i r heq
        have hsome : onnxAnonymize q = some r := by
          cases ml
          · simp at heq
          · simpa using heq
        exact (onnxAnonymize_some q r hsome).2
      · exact ruleBased_nonempty q hnorm
  · intro q h
    constructor
    · simp only [ruleBasedAnonymize]
      rw [if_pos h]
    · simp only [ruleBasedAnonymize]
      rw [if_pos h, mem_dedup]
      simp

set_option maxHeartbeats 2000000 in
/-- Witness for the amended claim C1: a 3-plus-character query yields a
non-empty anonymized query, and a query whose rule-based transformation
collapses (two pronouns, both stripped) reverts to the original with a
`fallback` tag. -/
theorem claim1_witness :
    (anonymizeQuery false "hello world").anonymizedQuery ≠ "" ∧
    ((ruleBasedAnonymize "my my").anonymizedQuery = jsTrim "my my" ∧
      "fallback" ∈ (ruleBasedAnonymize "my my").preservedSemantics) :=
  ⟨claim1_amended_nonempty.1 false "hello world" (by decide),
   claim1_amended_nonempty.2 "my my" (by decide)⟩

/-- Claim C2: `search` is total (the promise never rejects: every input is
answered by a well-formed `SearchResponse`), and whenever the DuckDuckGo
backend attempt fails for any reason, the response contains at least one
result — the synthesized mock set — and carries the distinguishing engine
label `Mirror Search (Fallback)`, distinct from the real backend label. -/
theorem claim2_search_never_fails (ml enA uA : Bool) (q : String) (o : FetchOutcome) (t : Nat)
    (h : isErr (searchDuckDuckGo (searchFinalQuery ml enA uA q) o) = true) :
    1 ≤ (search ml enA uA q o t).results.length ∧
    (search ml enA uA q o t).engine = "Mirror Search (Fallback)" ∧
    ("Mirror Search (Fallback)" : String) ≠ "DuckDuckGo" := by
  unfold search
  split
  · rename_i rs heq
    rw [heq] at h
    simp [isErr] at h
  · refine ⟨?_, rfl, by decide⟩
    show (1 : Nat) ≤ 3
    decide

/-- Witness for claim C2 at a concrete failing fetch. -/
theorem claim2_witness :
    1 ≤ (search false true false "abc" (FetchOutcome.httpError "HTTP 500") 0).results.length ∧
    (search false true false "abc" (FetchOutcome.httpError "HTTP 500") 0).engine =
      "Mirror Search (Fallback)" ∧
    ("Mirror Search (Fallback)" : String) ≠ "DuckDuckGo" :=
  claim2_search_never_fails false true false "abc" (FetchOutcome.httpError "HTTP 500") 0
    (by decide)

/-- Claim C3 (spec-modelled orchestrator): when the first-priority backend
fails and the second succeeds, `errorInfo` holds exactly one entry, keyed by
the name of the failed backend, and `engine` names the backend that succeeded. -/
theorem claim3_errorInfo_single_entry (n1 m n2 : String) (rs : List SearchResult) (q : String) :
    (searchWithFallback
      [⟨n1, Except.error m⟩, ⟨n2, Except.ok rs⟩] [] q).errorInfo = [(n1, m)] ∧
    (searchWithFallback
      [⟨n1, Except.error m⟩, ⟨n2, Except.ok rs⟩] [] q).engine = n2 :=
  ⟨rfl, rfl⟩

/-- Claim C4: the anonymization entry point is total (never throws), and on
an internal failure of the higher strategies the final catch handler answers
with `method = fallback` and a confidence inside the 0.1 - 0.3 range (the
source returns exactly 0.3). -/
theorem claim4_fallback_confidence (ml : Bool) (q : String) :
    (anonymizeQueryTotal ml true q).method = AnonMethod.fallback ∧
    1/10 ≤ (anonymizeQueryTotal ml true q).confidence ∧
    (anonymizeQueryTotal ml true q).confidence ≤ 3/10 := by
  refine ⟨rfl, ?_, ?_⟩
  · show (1 : ℚ)/10 ≤ 3/10
    norm_num
  · show (3 : ℚ)/10 ≤ 3/10
    norm_num

/-- Claim C5: an empty parsed result array from the backend is treated as a
backend failure (the attempt errors out), the orchestrator then falls through
to the mock fallback, and `search` never returns an empty results array. -/
theorem claim5_empty_parse_failure :
    (∀ (q : String) (d : DDGPayload), parseDuckDuckGoResults 10 d = [] →
      isErr (searchDuckDuckGo q (FetchOutcome.payload d)) = true) ∧
    (∀ (ml enA uA : Bool) (q : String) (d : DDGPayload) (t : Nat),
      parseDuckDuckGoResults 10 (d) = [] →
      (search ml enA uA q (FetchOutcome.payload d) t).engine = "Mirror Search (Fallback)") ∧
    (∀ (ml enA uA : Bool) (q : String) (o : FetchOutcome) (t : Nat),
      (search ml enA uA q o t).results ≠ []) := by
  refine ⟨?_, ?_, ?_⟩
  · intro q d h
    unfold searchDuckDuckGo
    split
    · rfl
    · simp only [h]
      rfl
  · intro ml enA uA q d t h
    unfold search
    split
    · rename_i rs heq
      rcases searchDuckDuckGo_ok_shape _ _ _ heq with ⟨hne, d2, hdd, hrs⟩
      injection hdd with hdd
      subst hdd
      exact absurd (hrs.trans h) hne
    · rfl
  · intro ml enA uA q o t
    unfold search
    split
    · rename_i rs heq
      exact (searchDuckDuckGo_ok_shape _ _ _ heq).1
    · exact List.cons_ne_nil _ _

/-- Witness for claim C5 at concrete inputs: a payload with no usable section
parses to an empty list and fails the attempt; the search falls back; and a
failing fetch still produces results. -/
theorem claim5_witness :
    isErr (searchDuckDuckGo "abc" (FetchOutcome.payload emptyDDGPayload)) = true ∧
    (search false true false "abc" (FetchOutcome.payload emptyDDGPayload) 0).engine =
      "Mirror Search (Fallback)" ∧
    (search false true false "ab" (FetchOutcome.httpError "boom") 0).results ≠ [] :=
  ⟨claim5_empty_parse_failure.1 "abc" emptyDDGPayload (by decide),
   claim5_empty_parse_failure.2.1 false true false "abc" emptyDDGPayload 0 (by decide),
   claim5_empty_parse_failure.2.2 false true false "ab" (FetchOutcome.httpError "boom") 0⟩

/-- Claim C6: for every input whose lower-cased trimmed form is shorter than
3 characters, `anonymizeQuery` returns the input unchanged with confidence
0.9 and the `short-query` tag. -/
theorem claim6_short_circuit (ml : Bool) (q : String) (h : (normalizedOf q).length < 3) :
    (anonymizeQuery ml q).anonymizedQuery = q ∧
    (anonymizeQuery ml q).confidence = 9/10 ∧
    "short-query" ∈ (anonymizeQuery ml q).preservedSemantics := by
  unfold anonymizeQuery
  rw [if_pos h]
  exact ⟨rfl, rfl, by simp⟩

/-- Witness for claim C6 at the two-character input `hi`. -/
theorem claim6_witness :
    (anonymizeQuery false "hi").anonymizedQuery = "hi" ∧
    (anonymizeQuery false "hi").confidence = 9/10 ∧
    "short-query" ∈ (anonymizeQuery false "hi").preservedSemantics :=
  claim6_short_circuit false "hi" (by decide)

/-- Claim C7: the rule-based confidence is `min(0.9, max(0.1, r*0.2 + 0.3))`,
where `r` counts the rule-table phrases found; with exactly one match, as on
the query `pizza in city`, the confidence is 0.5. -/
theorem claim7_rule_confidence :
    (∀ q : String, (ruleBasedAnonymize q).confidence =
      jsMin (9/10) (jsMax (1/10) ((ruleMatchCount q : ℚ) * (1/5) + 3/10))) ∧
    ruleMatchCount "pizza in city" = 1 ∧
    (ruleBasedAnonymize "pizza in city").confidence = 1/2 := by
  refine ⟨fun q => rfl, by decide, ?_⟩
  have h1 : (ruleBasedAnonymize "pizza in city").confidence =
      jsMin (9/10) (jsMax (1/10) ((ruleMatchCount "pizza in city" : ℚ) * (1/5) + 3/10)) := rfl
  rw [h1, show ruleMatchCount "pizza in city" = 1 from by decide]
  norm_num [jsMin, jsMax]

/-- Claim C8, counterexample: the parser applies no URL deduplication — a
payload whose Abstract and Answer sections are both present yields two
results sharing `AbstractURL` inside one response. -/
theorem claim8_counterexample :
    ((parseDuckDuckGoResults 10 dupPayload).map (fun r => r.url)) =
      ["http://u", "http://u"] ∧
    ¬ List.Pairwise (fun a b => a.url ≠ b.url) (parseDuckDuckGoResults 10 dupPayload) := by
  constructor <;> decide

/-- Claim C8, amended: only the synthesized fallback response is guaranteed
duplicate-free — its three URLs are pairwise distinct for every query — while
backend-parsed responses may repeat a URL, since `parseDuckDuckGoResults`
keeps every occurrence. -/
theorem claim8_amended_mock_distinct (ml enA uA : Bool) (q : String) (t : Nat) :
    List.Pairwise (fun a b => a.url ≠ b.url) ((getMockResults ml enA uA q t).results) :=
  mock_urls_pairwise _

/-- Claim C9: every result delivered to the caller through `safeResponse` has
string fields, and all four of `title`, `url`, `snippet`, `source` are
non-empty — missing upstream fields were already replaced by non-empty
placeholders (`Definition`, `Related Topic`, `Search Result`, `#`) during
parsing, on both the backend and the mock path. -/
theorem claim9_delivered_fields (ml enA uA : Bool) (q : String) (o : FetchOutcome) (t : Nat) :
    ((safeResponse q (search ml enA uA q o t)).results).all fieldsOk = true := by
  rw [List.all_eq_true]
  intro r hr
  simp only [safeResponse] at hr
  rcases List.mem_map.mp hr with ⟨x, hx, rfl⟩
  have hf := search_results_fields ml enA uA q o t x hx
  rw [fieldsOk_iff]
  simp only [coerceField_eq]
  exact hf

/-- Claim C10: every path of the anonymization engine — short-circuit, ONNX,
rule-based and the final catch fallback — copies the input verbatim into
`originalQuery`. -/
theorem claim10_originalQuery (ml err : Bool) (q : String) :
    (anonymizeQueryTotal ml err q).originalQuery = q ∧
    (ruleBasedAnonymize q).originalQuery = q := by
  refine ⟨?_, rfl⟩
  cases err with
  | true => rfl
  | false =>
    show (anonymizeQuery ml q).originalQuery = q
    unfold anonymizeQuery
    split
    · rfl
    · split
      · rename_i r heq
        have hsome : onnxAnonymize q = some r := by
          cases ml
          · simp at heq
          · simpa using heq
        exact (onnxAnonymize_some q r hsome).1
      · rfl

end MirrorSearch
